import Mathlib

/-!
Verification development for the trybook task-orchestration engine
(src/trybook.go).  The Go code is shallowly embedded: pure string
manipulation (strings.Split, strings.Fields, strings.TrimSpace,
strings.HasPrefix, strings.Contains) is modelled by structurally
recursive Lean functions over `List Char`; each handler or runner
becomes a pure function from its inputs plus oracles for the external
processes it spawns (git, bazel, the summarizer) to the data it writes;
the concurrent lifecycle of one Operation (`runLLMCommand` plus the
summary-caching write in `buildLLMResponseData`) becomes a small
labelled transition system whose atomic steps are exactly the
lock-protected write sections of the Go code.
-/

namespace Trybook

/-- Status of one Operation, the string field `LLMResponse.Status` in
trybook.go, which only ever holds "running", "success" or "error". -/
inductive Status where
  | running
  | success
  | error
  deriving DecidableEq, Repr, BEq

/-- The `LLMResponse` struct of trybook.go (the mutex is represented by
the atomicity of the steps that write these fields). -/
structure LLMResponse where
  output : String
  status : Status
  done : Bool
  err : Option String
  summary : String
  hasSummary : Bool
  deriving DecidableEq, Repr

/-- The field values every runner writes before starting
(`Status="running"`, everything else zeroed), and also the zero value
the struct literals in `apiRunPromptHandler` produce. -/
def LLMResponse.init : LLMResponse :=
  { output := "", status := .running, done := false, err := none,
    summary := "", hasSummary := false }

/-- The `PromptExecution` struct of trybook.go: one Execution holds an
agent ("claude"), a build-query and a build-test sub-Operation. -/
structure PromptExecution where
  claude : LLMResponse
  bazelQuery : LLMResponse
  bazelTest : LLMResponse
  deriving DecidableEq, Repr

/- ------------------------------------------------------------------
Go string primitives used by the code, modelled over `List Char`.
------------------------------------------------------------------ -/

/-- Go `strings.HasPrefix` over char lists: `listStartsWith pre s` is
true iff `pre` is an initial segment of `s`. -/
def listStartsWith : List Char → List Char → Bool
  | [], _ => true
  | _ :: _, [] => false
  | a :: as, b :: bs => a == b && listStartsWith as bs

/-- Go `strings.HasPrefix(s, pre)`. -/
def goStartsWith (s pre : String) : Bool :=
  listStartsWith pre.data s.data

/-- Go `strings.Contains` over char lists: `containsSubList sub s` is
true iff `sub` occurs contiguously in `s`. -/
def containsSubList : List Char → List Char → Bool
  | sub, [] => listStartsWith sub []
  | sub, b :: rest => listStartsWith sub (b :: rest) || containsSubList sub rest

/-- Go `strings.Contains(s, sub)`. -/
def goContains (s sub : String) : Bool :=
  containsSubList sub.data s.data

/-- Go `strings.TrimSpace` over char lists: drop leading and trailing
whitespace. -/
def goTrimSpaceList (l : List Char) : List Char :=
  ((l.dropWhile Char.isWhitespace).reverse.dropWhile Char.isWhitespace).reverse

/-- Go `strings.TrimSpace`. -/
def goTrimSpace (s : String) : String :=
  String.mk (goTrimSpaceList s.data)

/-- Helper for Go `strings.Fields`: `acc` holds the characters of the
current field in reverse order. -/
def fieldsAux : List Char → List Char → List (List Char)
  | acc, [] => if acc.isEmpty then [] else [acc.reverse]
  | acc, c :: rest =>
    if c.isWhitespace then
      if acc.isEmpty then fieldsAux [] rest else acc.reverse :: fieldsAux [] rest
    else fieldsAux (c :: acc) rest

/-- Go `strings.Fields` over char lists: split around runs of
whitespace, dropping empty fields. -/
def goFieldsList (l : List Char) : List (List Char) :=
  fieldsAux [] l

/-- Go `strings.Fields`. -/
def goFields (s : String) : List String :=
  (goFieldsList s.data).map String.mk

/-- Go `strings.Split(s, sep)` for a one-character separator (the only
shape the code uses: "-" and "/").  Always returns at least one
element; `Split("", sep) = [""]` as in Go. -/
def splitOnChar (sep : Char) : List Char → List (List Char)
  | [] => [[]]
  | a :: as =>
    if a = sep then [] :: splitOnChar sep as
    else
      match splitOnChar sep as with
      | [] => [[a]]
      | h :: t => (a :: h) :: t

/-- Go `strings.Split` on a one-character separator, over `String`. -/
def splitOnCharStr (sep : Char) (s : String) : List String :=
  (splitOnChar sep s.data).map String.mk

/- ------------------------------------------------------------------
Summarizer cache (buildLLMResponseData, trybook.go lines 1128-1195).
------------------------------------------------------------------ -/

/-- Which framing instruction a summarization call uses:
`runLLMSummary` (agent-output framing) or `runBazelSummary`
(build-tool framing). -/
inductive SummaryRole where
  | agent
  | bazel
  deriving DecidableEq, Repr

/-- The summarizer selection of `buildLLMResponseData` (lines
1139-1146): the role is chosen by substring-matching the currently
cached summary text, not by which sub-Operation is being summarized. -/
def chooseSummaryRole (resp : LLMResponse) : SummaryRole :=
  if goContains resp.summary "Bazel" || goContains resp.summary "targets" then .bazel
  else .agent

/-- One call of `buildLLMResponseData` (lines 1128-1195).  The external
summarizer is the oracle argument (`none` = the timed call failed).
Returns the summary string placed in the response map, the
LLMResponse after the call (the only write is the summary cache), and
how many times the external summarizer was invoked (0 or 1). -/
def buildLLMResponseData (oracle : SummaryRole → String → Option String)
    (resp : LLMResponse) : String × LLMResponse × Nat :=
  let role := chooseSummaryRole resp
  if resp.hasSummary then (resp.summary, resp, 0)
  else if resp.done then
    if resp.output = "" then ("No output available for final summary.", resp, 0)
    else
      match oracle role resp.output with
      | none => ("Could not generate final summary.", resp, 1)
      | some s => (s, { resp with summary := s, hasSummary := true }, 1)
  else
    if resp.output = "" then ("No output available yet.", resp, 0)
    else
      match oracle role resp.output with
      | none => ("Could not generate summary.", resp, 1)
      | some s => (s, resp, 1)

/- ------------------------------------------------------------------
Build query and test (runBazelQueryAndTest, trybook.go lines 962-1078).
------------------------------------------------------------------ -/

/-- What one run of `runBazelQueryAndTest` writes: the final query and
test sub-Operation states, and whether the `bazel test` process was
spawned at all. -/
structure BazelRun where
  queryResp : LLMResponse
  testResp : LLMResponse
  testInvoked : Bool
  deriving DecidableEq, Repr

/-- The body of `runBazelQueryAndTest` after the notebook-name split
(lines 999-1077).  `queryOut`/`queryOk` are the combined output and
exit success of the `bazel query` process, `testOut`/`testOk` those of
the `bazel test` process (consulted only if it is spawned). -/
def runBazelQueryAndTestCore (queryOut : String) (queryOk : Bool)
    (testOut : String) (testOk : Bool) : BazelRun :=
  let qOutT := goTrimSpace queryOut
  let queryResp : LLMResponse :=
    { output := qOutT, status := if queryOk then .success else .error,
      done := true, err := if queryOk then none else some "bazel query failed",
      summary := "", hasSummary := false }
  if queryOk = false ∨ qOutT = "" then
    { queryResp := queryResp,
      testResp := { output := "No Bazel test targets found or query failed.",
                    status := .success, done := true, err := none,
                    summary := "", hasSummary := false },
      testInvoked := false }
  else
    let targets := goFields qOutT
    if targets = [] then
      { queryResp := queryResp,
        testResp := { output := "Bazel query found no test targets.",
                      status := .success, done := true, err := none,
                      summary := "", hasSummary := false },
        testInvoked := false }
    else
      { queryResp := queryResp,
        testResp := { output := goTrimSpace testOut,
                      status := if testOk then .success else .error,
                      done := true,
                      err := if testOk then none else some "bazel test failed",
                      summary := "", hasSummary := false },
        testInvoked := true }

/-- `runBazelQueryAndTest` (lines 962-1078).  Before anything runs, the
function computes `parts := strings.Split(notebookName, "-")` and
reads `parts[0]` and `parts[1]` (lines 987-989); `parts[1]` is out of
bounds — a Go runtime panic, modelled as `none` — exactly when the
split has fewer than two elements. -/
def runBazelQueryAndTest (notebookName queryOut : String) (queryOk : Bool)
    (testOut : String) (testOk : Bool) : Option BazelRun :=
  if 2 ≤ (splitOnCharStr '-' notebookName).length then
    some (runBazelQueryAndTestCore queryOut queryOk testOut testOk)
  else none

/- ------------------------------------------------------------------
Aggregate status (apiSummarizeTaskHandler, trybook.go lines 1239-1303).
------------------------------------------------------------------ -/

/-- The overall-status computation of `apiSummarizeTaskHandler` (lines
1271-1291).  `pollPrompt` is `r.FormValue("prompt")` of the polling
request: the handler re-reads the prompt from the poll request, and
derives the aggregate from exactly one sub-Operation — BazelTest when
that value starts with "test ", Claude otherwise. -/
def overallStatus (pollPrompt : String) (pe : PromptExecution) : Status :=
  if goStartsWith pollPrompt "test " then
    if pe.bazelTest.done then
      if pe.bazelTest.status = Status.success then .success else .error
    else .running
  else
    if pe.claude.done then
      if pe.claude.status = Status.success then .success else .error
    else .running

/-- Modelled from the spec's words (for comparison with
`overallStatus`): the aggregate rule of spec section 4.3 — success iff
every relevant sub-Operation is done and successful, error if any
relevant sub-Operation is done and failed, running otherwise. -/
def specAggregate (relevant : List LLMResponse) : Status :=
  if relevant.all (fun o => o.done && o.status == Status.success) then .success
  else if relevant.any (fun o => o.done && o.status == Status.error) then .error
  else .running

/-- The invariant every sub-Operation of the running system satisfies:
its status is "running" exactly until `done` is set (every write in
trybook.go sets `Status` to "success"/"error" in the same locked
section that sets `Done = true`). -/
def statusConsistent (r : LLMResponse) : Prop :=
  (r.done = false → r.status = Status.running) ∧
  (r.done = true → r.status ≠ Status.running)

/- ------------------------------------------------------------------
Repo sync (manageRepo, trybook.go lines 1316-1367).
------------------------------------------------------------------ -/

/-- Oracle for the external processes `manageRepo` may spawn: whether
`os.MkdirAll` succeeds, exit success and combined output of `git pull`
and of `git clone`, and the revision `git rev-parse HEAD` reports
afterwards (`none` = the lookup failed). -/
structure SyncOracle where
  mkdirOk : Bool
  pullOk : Bool
  pullOut : String
  cloneOk : Bool
  cloneOut : String
  headRev : Option String
  deriving DecidableEq, Repr

/-- Result of one `manageRepo` call: the mirror path plus revision on
success, or an error message carrying the diagnostic text. -/
inductive SyncOutcome where
  | ok (path rev : String)
  | failed (msg : String)
  deriving DecidableEq, Repr

/-- `manageRepo` (lines 1316-1367) as a function of the abstract mirror
state: `dirExists` is whether `os.Stat(repoDir)` finds the mirror
directory.  Returns the directory's existence after the call and the
outcome.  Present directory: `git pull` inside it; absent: `os.MkdirAll`
then shallow `git clone`; after a successful command, `git rev-parse
HEAD` supplies the revision. -/
def manageRepo (dirExists : Bool) (repoDir : String) (o : SyncOracle) :
    Bool × SyncOutcome :=
  if dirExists then
    if o.pullOk then
      match o.headRev with
      | some rev => (true, .ok repoDir rev)
      | none => (true, .failed "could not get HEAD commit after git pull")
    else (true, .failed ("git pull failed: " ++ o.pullOut))
  else
    if o.mkdirOk then
      if o.cloneOk then
        match o.headRev with
        | some rev => (true, .ok repoDir rev)
        | none => (true, .failed "could not get HEAD commit after git clone")
      else (true, .failed ("git clone failed: " ++ o.cloneOut))
    else (false, .failed "create repo directory failed")

/- ------------------------------------------------------------------
Start-prompt endpoint (apiRunPromptHandler, trybook.go lines 1081-1125).
------------------------------------------------------------------ -/

/-- Observable outcome of one `apiRunPromptHandler` request: the HTTP
status code written, the task id in the JSON body (if any), and the id
inserted into the `promptExecutions` registry (if any). -/
structure RunPromptResult where
  code : Nat
  taskId : Option String
  registered : Option String
  deriving DecidableEq, Repr

/-- `apiRunPromptHandler` (lines 1081-1125): method check, URL-shape
check on `strings.Split(r.URL.Path, "/")`, empty-prompt check (400),
worktree-existence check (404), then a fresh execution id is generated,
registered, and returned with a 200 JSON body. -/
def apiRunPromptHandler (method urlPath prompt : String)
    (worktreeExists : Bool) (freshId : String) : RunPromptResult :=
  if method ≠ "POST" then ⟨405, none, none⟩
  else
    let parts := splitOnCharStr '/' urlPath
    if parts.length < 6 ∨ parts.getD 1 "" ≠ "api" ∨ parts.getD 2 "" ≠ "run-prompt" then
      ⟨400, none, none⟩
    else if prompt = "" then ⟨400, none, none⟩
    else if worktreeExists = false then ⟨404, none, none⟩
    else ⟨200, some freshId, some freshId⟩

/- ------------------------------------------------------------------
Operation lifecycle (runLLMCommand, trybook.go lines 810-931, plus the
summary-cache write of buildLLMResponseData, lines 1161-1164).
------------------------------------------------------------------ -/

/-- Program phase of one `runLLMCommand` run: before or after the
finalization section (lines 917-930). -/
inductive Phase where
  | running
  | finished
  deriving DecidableEq, Repr

/-- State of one Operation's run: the lines the external process has
emitted but the stream readers have not yet consumed, the lines
accumulated in the run-local `combinedOutputBuilder`, the shared
`LLMResponse` visible to pollers, and the phase. -/
structure RunState where
  pending : List String
  builder : List String
  resp : LLMResponse
  phase : Phase
  deriving Repr

/-- State right after the initialization section of `runLLMCommand`
(lines 814-821), for a process that will emit `allLines`. -/
def initRunState (allLines : List String) : RunState :=
  { pending := allLines, builder := [], resp := LLMResponse.init, phase := .running }

/-- The combined output the finalization section stores: the builder's
lines each with the trailing newline the readers append (lines 892 and
905), joined and trimmed (line 920). -/
def combinedOf (builder : List String) : String :=
  goTrimSpace (String.join (builder.map (fun l => l ++ "\n")))

/-- The `LLMResponse` after the finalization section (lines 917-930):
output, done and status are written in one locked section; `execOk` is
whether `cmd.Wait()` returned nil. -/
def finalResp (execOk : Bool) (builder : List String) (resp : LLMResponse) :
    LLMResponse :=
  { resp with
    output := combinedOf builder,
    done := true,
    status := if execOk then .success else .error,
    err := if execOk then none else some "exit status 1" }

/-- Atomic steps of one Operation's lifecycle.  `readLine`: a stream
reader consumes one emitted line into the run-local builder (lines
887-910) — note it does not touch the shared response.  `finalize`: the
finalization section (lines 917-930); it is only reachable after
`wg.Wait()` has joined both readers, i.e. with no pending line left.
`cacheSummary`: the summary-cache write of `buildLLMResponseData`
(lines 1161-1164), performed only for a done response with no cached
summary and non-empty output. -/
inductive RunStep (execOk : Bool) : RunState → RunState → Prop where
  | readLine (l : String) (pending builder : List String) (resp : LLMResponse) :
      RunStep execOk ⟨l :: pending, builder, resp, .running⟩
        ⟨pending, builder ++ [l], resp, .running⟩
  | finalize (builder : List String) (resp : LLMResponse) :
      RunStep execOk ⟨[], builder, resp, .running⟩
        ⟨[], builder, finalResp execOk builder resp, .finished⟩
  | cacheSummary (s : String) (pending builder : List String)
      (resp : LLMResponse) (ph : Phase) :
      resp.done = true → resp.hasSummary = false → resp.output ≠ "" →
      RunStep execOk ⟨pending, builder, resp, ph⟩
        ⟨pending, builder, { resp with summary := s, hasSummary := true }, ph⟩

/-- Reachable states of one Operation's lifecycle for a process that
emits `allLines` and exits with success `execOk`. -/
inductive Reach (execOk : Bool) (allLines : List String) : RunState → Prop where
  | init : Reach execOk allLines (initRunState allLines)
  | step {s s' : RunState} : Reach execOk allLines s → RunStep execOk s s' →
      Reach execOk allLines s'

/-- The inductive invariant of the lifecycle: builder plus pending
lines always account for the whole emission; while running, the shared
response is untouched; once finished, the pending list is empty and
the full combined output, terminal status and done flag are stored. -/
def RunInv (execOk : Bool) (allLines : List String) (s : RunState) : Prop :=
  s.builder ++ s.pending = allLines ∧
  (s.phase = .running → s.resp.done = false ∧ s.resp.output = "" ∧
    s.resp.status = Status.running) ∧
  (s.phase = .finished → s.resp.done = true ∧ s.pending = [] ∧
    s.resp.output = combinedOf allLines ∧
    s.resp.status = (if execOk then Status.success else Status.error))

/- ------------------------------------------------------------------
Concrete values used by counterexamples and witnesses.
------------------------------------------------------------------ -/

/-- A completed agent sub-Operation that failed (non-zero exit). -/
def c1Claude : LLMResponse :=
  { output := "agent failed", status := .error, done := true,
    err := some "exit status 1", summary := "", hasSummary := false }

/-- A completed, successful sub-Operation. -/
def c1Ok : LLMResponse :=
  { output := "ok", status := .success, done := true, err := none,
    summary := "", hasSummary := false }

/-- An Execution whose agent failed while both build sub-Operations
succeeded. -/
def c1PE : PromptExecution :=
  { claude := c1Claude, bazelQuery := c1Ok, bazelTest := c1Ok }

/-- A freshly created Execution: every sub-Operation still running. -/
def c1RunPE : PromptExecution :=
  { claude := LLMResponse.init, bazelQuery := LLMResponse.init,
    bazelTest := LLMResponse.init }

/-- The state of an Operation right after finalization of a run that
read the single line "a" and exited successfully. -/
def c6State : RunState :=
  { pending := [], builder := ["a"], resp := finalResp true ["a"] LLMResponse.init,
    phase := .finished }

/-- A completed Operation with non-empty output and no cached summary. -/
def c3Resp : LLMResponse :=
  { output := "x", status := .success, done := true, err := none,
    summary := "", hasSummary := false }

/-- A summarizer whose timed external call always fails. -/
def c3FailOracle : SummaryRole → String → Option String := fun _ _ => none

/-- A summarizer whose timed external call always succeeds. -/
def c3OkOracle : SummaryRole → String → Option String := fun _ _ => some "ok summary"

/-- Mid-run state of an Operation whose process emitted the line
"hello" and whose readers already consumed it. -/
def c5State : RunState :=
  { pending := [], builder := ["hello"], resp := LLMResponse.init, phase := .running }

/-- Oracle for a sync request on an absent mirror where directory
creation succeeds but the shallow clone fails. -/
def c8Oracle : SyncOracle :=
  { mkdirOk := true, pullOk := true, pullOut := "", cloneOk := false,
    cloneOut := "fatal: could not read from remote repository",
    headRev := some "abc123" }

/-- Oracle for sync requests where every external step succeeds. -/
def c8OkOracle : SyncOracle :=
  { mkdirOk := true, pullOk := true, pullOut := "Already up to date.",
    cloneOk := true, cloneOut := "Cloning...", headRev := some "abc123" }

end Trybook

namespace Trybook

lemma splitOnChar_ne_nil (sep : Char) (l : List Char) : splitOnChar sep l ≠ [] := by
  cases l with
  | nil => simp [splitOnChar]
  | cons a as =>
    unfold splitOnChar
    by_cases h : a = sep
    · simp [h]
    · simp only [h, if_false]
      cases hs : splitOnChar sep as <;> simp

lemma two_le_splitOnChar_length_iff (sep : Char) (l : List Char) :
    2 ≤ (splitOnChar sep l).length ↔ sep ∈ l := by
  induction l with
  | nil => simp [splitOnChar]
  | cons a as ih =>
    unfold splitOnChar
    by_cases h : a = sep
    · subst h
      have hne := splitOnChar_ne_nil a as
      have : 1 ≤ (splitOnChar a as).length := by
        cases hs : splitOnChar a as with
        | nil => exact absurd hs hne
        | cons x xs => simp
      rw [if_pos rfl]
      simp only [List.length_cons, List.mem_cons]
      exact iff_of_true (by omega) (by simp)
    · simp only [h, if_false]
      cases hs : splitOnChar sep as with
      | nil => exact absurd hs (splitOnChar_ne_nil sep as)
      | cons x xs =>
        have hlen : (splitOnChar sep as).length = xs.length + 1 := by rw [hs]; simp
        simp only [List.length_cons, List.mem_cons]
        constructor
        · intro h2
          have : 2 ≤ (splitOnChar sep as).length := by omega
          exact Or.inr (ih.mp this)
        · intro hmem
          rcases hmem with heq | hmem
          · exact absurd heq.symm h
          · have := ih.mpr hmem
            omega

lemma splitOnChar_length_eq_one_iff (sep : Char) (l : List Char) :
    (splitOnChar sep l).length = 1 ↔ ¬ sep ∈ l := by
  have h1 : 1 ≤ (splitOnChar sep l).length := by
    cases hs : splitOnChar sep l with
    | nil => exact absurd hs (splitOnChar_ne_nil sep l)
    | cons x xs => simp
  have h2 := two_le_splitOnChar_length_iff sep l
  constructor
  · intro h hm
    have := h2.mpr hm
    omega
  · intro hm
    by_contra hne
    exact hm (h2.mp (by omega))

lemma dropWhile_head_false (p : Char → Bool) :
    ∀ (l : List Char) (x : Char) (xs : List Char),
      l.dropWhile p = x :: xs → p x = false := by
  intro l
  induction l with
  | nil => intro x xs h; simp [List.dropWhile] at h
  | cons a l ih =>
    intro x xs h
    by_cases hp : p a
    · rw [List.dropWhile_cons_of_pos hp] at h
      exact ih x xs h
    · rw [List.dropWhile_cons_of_neg hp] at h
      cases h
      simpa using hp

lemma goTrimSpaceList_head_not_ws (l : List Char) (h : goTrimSpaceList l ≠ []) :
    ∃ c ∈ goTrimSpaceList l, c.isWhitespace = false := by
  unfold goTrimSpaceList at h ⊢
  cases hc : (l.dropWhile Char.isWhitespace).reverse.dropWhile Char.isWhitespace with
  | nil => rw [hc] at h; exact absurd rfl h
  | cons x xs =>
    exact ⟨x, by simp, dropWhile_head_false Char.isWhitespace _ x xs hc⟩

lemma fieldsAux_ne_nil_of_acc (l : List Char) :
    ∀ acc : List Char, acc ≠ [] → fieldsAux acc l ≠ [] := by
  induction l with
  | nil =>
    intro acc hacc
    simp only [fieldsAux]
    rw [if_neg (by simpa using hacc)]
    simp
  | cons c rest ih =>
    intro acc hacc
    simp only [fieldsAux]
    by_cases hws : c.isWhitespace
    · rw [if_pos hws, if_neg (by simpa using hacc)]
      simp
    · rw [if_neg hws]
      exact ih (c :: acc) (by simp)

lemma fieldsAux_ne_nil_of_not_ws (l : List Char) :
    ∀ acc : List Char, (∃ c ∈ l, c.isWhitespace = false) → fieldsAux acc l ≠ [] := by
  induction l with
  | nil => intro acc h; simp at h
  | cons c rest ih =>
    intro acc h
    simp only [fieldsAux]
    by_cases hws : c.isWhitespace
    · have hrest : ∃ x ∈ rest, x.isWhitespace = false := by
        rcases h with ⟨x, hx, hxw⟩
        rcases List.mem_cons.mp hx with rfl | hx'
        · exact absurd hws (by simp [hxw])
        · exact ⟨x, hx', hxw⟩
      rw [if_pos hws]
      by_cases hacc : acc.isEmpty
      · rw [if_pos hacc]; exact ih [] hrest
      · rw [if_neg hacc]; simp
    · rw [if_neg hws]
      exact fieldsAux_ne_nil_of_acc rest (c :: acc) (by simp)

lemma string_mk_eq_empty_iff (l : List Char) : String.mk l = "" ↔ l = [] := by
  constructor
  · intro h
    have : (String.mk l).data = ("" : String).data := by rw [h]
    simpa using this
  · intro h; rw [h]

lemma goFields_goTrimSpace_ne_nil (s : String) (h : goTrimSpace s ≠ "") :
    goFields (goTrimSpace s) ≠ [] := by
  have hl : goTrimSpaceList s.data ≠ [] := by
    intro hnil
    exact h (by unfold goTrimSpace; rw [(string_mk_eq_empty_iff _).mpr hnil])
  have hdata : (goTrimSpace s).data = goTrimSpaceList s.data := rfl
  obtain ⟨c, hc, hcw⟩ := goTrimSpaceList_head_not_ws s.data hl
  unfold goFields goFieldsList
  rw [hdata]
  intro hmap
  exact fieldsAux_ne_nil_of_not_ws (goTrimSpaceList s.data) [] ⟨c, hc, hcw⟩
    (by simpa using hmap)

lemma reach_inv {execOk : Bool} {allLines : List String} {s : RunState}
    (hr : Reach execOk allLines s) : RunInv execOk allLines s := by
  induction hr with
  | init =>
    refine ⟨by simp [initRunState], ?_, ?_⟩
    · intro _
      exact ⟨rfl, rfl, rfl⟩
    · intro h
      simp [initRunState] at h
  | step hr' hstep ih =>
    rename_i t t'
    cases hstep with
    | readLine l pending builder resp =>
      obtain ⟨h1, h2, _⟩ := ih
      refine ⟨?_, ?_, ?_⟩
      · simpa [List.append_assoc] using h1
      · intro _
        exact h2 rfl
      · intro h
        exact absurd h (by simp)
    | finalize builder resp =>
      obtain ⟨h1, _, _⟩ := ih
      have hb : builder = allLines := by simpa using h1
      refine ⟨by simpa using h1, ?_, ?_⟩
      · intro h
        exact absurd h (by simp)
      · intro _
        refine ⟨rfl, rfl, ?_, rfl⟩
        simp [finalResp, hb]
    | cacheSummary str pending builder resp ph hdone hns hout =>
      obtain ⟨h1, h2, h3⟩ := ih
      refine ⟨h1, ?_, ?_⟩
      · intro h
        have := (h2 h).1
        rw [this] at hdone
        exact absurd hdone (by simp)
      · intro h
        obtain ⟨hd, hp, ho, hs⟩ := h3 h
        exact ⟨by simpa using hd, hp, by simpa using ho, by simpa using hs⟩

lemma reach_drain (execOk : Bool) :
    ∀ (l2 l1 : List String),
      Reach execOk (l1 ++ l2) ⟨l2, l1, LLMResponse.init, .running⟩ →
      Reach execOk (l1 ++ l2) ⟨[], l1 ++ l2, LLMResponse.init, .running⟩ := by
  intro l2
  induction l2 with
  | nil =>
    intro l1 h
    simpa using h
  | cons l ls ih =>
    intro l1 h
    have hstep : Reach execOk (l1 ++ l :: ls) ⟨ls, l1 ++ [l], LLMResponse.init, .running⟩ :=
      Reach.step h (RunStep.readLine l ls l1 LLMResponse.init)
    have happ : (l1 ++ [l]) ++ ls = l1 ++ l :: ls := by simp
    have := ih (l1 ++ [l]) (by rw [happ]; exact hstep)
    rw [happ] at this
    exact this

lemma reach_done (execOk : Bool) (allLines : List String) :
    ∃ t, Reach execOk allLines t ∧ t.resp.done = true := by
  have h0 : Reach execOk ([] ++ allLines) ⟨allLines, [], LLMResponse.init, .running⟩ :=
    Reach.init
  have hdr := reach_drain execOk allLines [] h0
  have hfin := Reach.step (by simpa using hdr)
    (RunStep.finalize allLines LLMResponse.init)
  exact ⟨_, hfin, rfl⟩

/-- C10: for every prompt of the form `test ` plus a non-empty word,
`runBazelQueryAndTest` indexes element 1 of
`strings.Split(notebookName, "-")` (trybook.go lines 987-989); the
split has exactly one element — so the access is out of bounds, a
runtime panic, modelled as the `none` result — precisely when the
notebook name contains no `-` character, and the indexing is in bounds
exactly under the precondition that the name contains at least one
`-`. -/
theorem c10_notebook_split_bounds :
    ∀ (name queryOut testOut : String) (queryOk testOk : Bool),
      ((splitOnCharStr '-' name).length = 1 ↔ ¬ ('-' ∈ name.data)) ∧
      (runBazelQueryAndTest name queryOut queryOk testOut testOk = none ↔
        ¬ ('-' ∈ name.data)) := by
  intro name queryOut testOut queryOk testOk
  have hlen : (splitOnCharStr '-' name).length = (splitOnChar '-' name.data).length := by
    simp [splitOnCharStr]
  constructor
  · rw [hlen]
    exact splitOnChar_length_eq_one_iff '-' name.data
  · unfold runBazelQueryAndTest
    by_cases h : 2 ≤ (splitOnCharStr '-' name).length
    · rw [if_pos h]
      have hmem : '-' ∈ name.data :=
        (two_le_splitOnChar_length_iff '-' name.data).mp (by rw [hlen] at h; exact h)
      exact iff_of_false (by simp) (by simpa using hmem)
    · rw [if_neg h]
      have hnmem : ¬ '-' ∈ name.data := by
        intro hm
        exact h (by rw [hlen]; exact (two_le_splitOnChar_length_iff '-' name.data).mpr hm)
      exact iff_of_true rfl hnmem

/-- C4: for every triggered build-query sub-Operation whose `bazel
query` command fails or whose output contains no target names, the
build-test sub-Operation is resolved immediately to a done, successful
state carrying the fixed message of trybook.go line 1030, and the
`bazel test` process is never spawned; the agent sub-Operation plays no
part in this (the embedded function takes no agent state at all). -/
theorem c4_no_targets_resolves_test_success
    (name queryOut testOut : String) (queryOk testOk : Bool) (r : BazelRun)
    (hr : runBazelQueryAndTest name queryOut queryOk testOut testOk = some r)
    (hcond : queryOk = false ∨ goFields (goTrimSpace queryOut) = []) :
    r.testResp.status = Status.success ∧ r.testResp.done = true ∧
    r.testResp.output = "No Bazel test targets found or query failed." ∧
    r.testResp.err = none ∧ r.testInvoked = false := by
  unfold runBazelQueryAndTest at hr
  by_cases h : 2 ≤ (splitOnCharStr '-' name).length
  · rw [if_pos h] at hr
    have hcore : runBazelQueryAndTestCore queryOut queryOk testOut testOk = r :=
      Option.some.inj hr
    subst hcore
    unfold runBazelQueryAndTestCore
    by_cases hc : queryOk = false ∨ goTrimSpace queryOut = ""
    · rw [if_pos hc]
      exact ⟨rfl, rfl, rfl, rfl, rfl⟩
    · exfalso
      push_neg at hc
      obtain ⟨hq, ht⟩ := hc
      rcases hcond with h1 | h2
      · exact hq h1
      · exact goFields_goTrimSpace_ne_nil queryOut ht h2
  · rw [if_neg h] at hr
    exact absurd hr (by simp)

/-- C4 witness: a concrete triggered run on notebook `a-b` whose query
succeeds with all-whitespace output (no target names). -/
theorem c4_witness :
    (runBazelQueryAndTestCore " " true "" true).testResp.status = Status.success ∧
    (runBazelQueryAndTestCore " " true "" true).testResp.done = true ∧
    (runBazelQueryAndTestCore " " true "" true).testResp.output =
      "No Bazel test targets found or query failed." ∧
    (runBazelQueryAndTestCore " " true "" true).testResp.err = none ∧
    (runBazelQueryAndTestCore " " true "" true).testInvoked = false :=
  c4_no_targets_resolves_test_success "a-b" " " "" true true
    (runBazelQueryAndTestCore " " true "" true) (by decide) (Or.inr (by decide))

/-- C2: the code contradicts the claim.  The summarization framing is
not fixed at sub-Operation creation: `buildLLMResponseData` (trybook.go
lines 1139-1146) picks the summarizer by substring-matching the cached
summary text, so a freshly created build-query sub-Operation (cached
summary empty) is summarized with the agent-output framing, and the
framing flips to build-tool only once some cached summary happens to
contain "Bazel" or "targets". -/
theorem c2_summary_role_heuristic :
    chooseSummaryRole LLMResponse.init = SummaryRole.agent ∧
    chooseSummaryRole
      { LLMResponse.init with summary := "Bazel query found no test targets." } =
      SummaryRole.bazel ∧
    chooseSummaryRole { LLMResponse.init with summary := "found 3 targets" } =
      SummaryRole.bazel := by
  refine ⟨?_, ?_, ?_⟩ <;> decide

/-- C3 counterexample: a completed Operation with non-empty output
whose first timed summarization call fails is not cached, so a second
poll invokes the external summarizer again — two invocations for one
completed Operation, refuting "invoked at most once". -/
theorem c3_counterexample :
    (buildLLMResponseData c3FailOracle c3Resp).2.2 +
      (buildLLMResponseData c3FailOracle
        (buildLLMResponseData c3FailOracle c3Resp).2.1).2.2 = 2 ∧
    ((buildLLMResponseData c3FailOracle c3Resp).2.1).hasSummary = false := by
  constructor <;> rfl

/-- C3 (amended): for every completed Operation (done=true) with
non-empty output and no cached summary, the first summarization that
succeeds is cached, and every subsequent summary request — under any
summarizer behaviour — returns that identical cached string with zero
further summarizer invocations; a failed attempt is not cached and the
summarizer is invoked again on the next request. -/
theorem c3_first_success_cached
    (resp : LLMResponse) (oracle oracle2 : SummaryRole → String → Option String)
    (s : String) (hd : resp.done = true) (hns : resp.hasSummary = false)
    (ho : resp.output ≠ "")
    (hok : oracle (chooseSummaryRole resp) resp.output = some s) :
    buildLLMResponseData oracle resp =
      (s, { resp with summary := s, hasSummary := true }, 1) ∧
    buildLLMResponseData oracle2 { resp with summary := s, hasSummary := true } =
      (s, { resp with summary := s, hasSummary := true }, 0) := by
  constructor
  · simp only [buildLLMResponseData]
    rw [if_neg (by simp [hns]), if_pos hd, if_neg ho, hok]
  · simp [buildLLMResponseData]

/-- C3 witness: the amended behaviour at a concrete completed
Operation and a succeeding summarizer. -/
theorem c3_witness :
    buildLLMResponseData c3OkOracle c3Resp =
      ("ok summary", { c3Resp with summary := "ok summary", hasSummary := true }, 1) :=
  (c3_first_success_cached c3Resp c3OkOracle c3OkOracle "ok summary" rfl rfl
    (by decide) rfl).1

lemma primaryStatusEq (r : LLMResponse) (h : statusConsistent r) :
    (if r.done then (if r.status = Status.success then Status.success else Status.error)
     else Status.running) = r.status := by
  obtain ⟨h1, h2⟩ := h
  cases hd : r.done with
  | false => simp [hd, h1 hd]
  | true =>
    cases hst : r.status with
    | running => exact absurd hst (h2 hd)
    | success => simp [hd, hst]
    | error => simp [hd, hst]

/-- C1 counterexample: an Execution from a triggered test prompt whose
agent sub-Operation is done and failed while both build sub-Operations
are done and successful.  The code's aggregate (derived from BazelTest
alone) is `success`, while the claimed rule — error if any relevant
sub-Operation is done and failed — demands `error`. -/
theorem c1_counterexample :
    overallStatus "test x" c1PE = Status.success ∧
    specAggregate [c1PE.claude, c1PE.bazelQuery, c1PE.bazelTest] = Status.error ∧
    Status.success ≠ Status.error := by
  refine ⟨?_, ?_, ?_⟩ <;> decide

/-- C1 (amended): the aggregate status is derived per poll from a
single primary sub-Operation selected by the poll request's prompt
parameter — BazelTest when that value starts with "test ", Claude
otherwise: the aggregate equals the primary's status (given that every
sub-Operation's status is "running" exactly until it is done).  In
particular, for a poll with no test-prompt parameter the aggregate
equals the agent sub-Operation's status. -/
theorem c1_primary_only_aggregate (pollPrompt : String) (pe : PromptExecution)
    (hc : statusConsistent pe.claude) (ht : statusConsistent pe.bazelTest) :
    overallStatus pollPrompt pe =
      (if goStartsWith pollPrompt "test " then pe.bazelTest.status
       else pe.claude.status) := by
  unfold overallStatus
  by_cases hp : goStartsWith pollPrompt "test " = true
  · rw [if_pos hp, if_pos hp]
    exact primaryStatusEq pe.bazelTest ht
  · rw [if_neg hp, if_neg hp]
    exact primaryStatusEq pe.claude hc

/-- C1 witness: a freshly created Execution polled with a non-test
prompt parameter reports its agent's status. -/
theorem c1_witness :
    overallStatus "fix the bug" c1RunPE =
      (if goStartsWith "fix the bug" "test " then c1RunPE.bazelTest.status
       else c1RunPE.claude.status) :=
  c1_primary_only_aggregate "fix the bug" c1RunPE
    (by unfold statusConsistent; exact ⟨fun _ => rfl, fun h => nomatch h⟩)
    (by unfold statusConsistent; exact ⟨fun _ => rfl, fun h => nomatch h⟩)

/-- C5 counterexample: a reachable mid-run state in which the process
emitted the line "hello" and the stream reader already consumed it into
the run-local builder, yet the Operation's shared output is still empty
— a poll issued at this point does not observe the partial output, so
lines are not appended incrementally to the Operation's shared
buffer. -/
theorem c5_counterexample :
    Reach true ["hello"] c5State ∧ c5State.builder = ["hello"] ∧
    c5State.resp.done = false ∧ c5State.resp.output = "" := by
  refine ⟨?_, rfl, rfl, rfl⟩
  exact Reach.step Reach.init (RunStep.readLine "hello" [] [] LLMResponse.init)

/-- C5 (amended): output lines accumulate in a run-local builder while
the process runs; the Operation's shared output field is written only
once, by the finalization section, so every poll issued before
completion observes empty output (and status "running"), not the
partial output produced so far. -/
theorem c5_output_published_at_completion (execOk : Bool) (allLines : List String)
    (s : RunState) (hr : Reach execOk allLines s) (hnd : s.resp.done = false) :
    s.resp.output = "" ∧ s.resp.status = Status.running := by
  obtain ⟨_, h2, h3⟩ := reach_inv hr
  cases hp : s.phase with
  | running =>
    obtain ⟨_, ho, hs⟩ := h2 hp
    exact ⟨ho, hs⟩
  | finished =>
    rw [(h3 hp).1] at hnd
    simp at hnd

/-- C5 witness: the amended statement at the initial state of a run. -/
theorem c5_witness :
    (initRunState ["x"]).resp.output = "" ∧
    (initRunState ["x"]).resp.status = Status.running :=
  c5_output_published_at_completion true ["x"] (initRunState ["x"]) Reach.init rfl

/-- C6: a poller never observes a terminal status with captured output
still missing: the finalize step is enabled only once no emitted line
is pending (both stream readers joined), and it stores the full
combined output, the done flag and the terminal status in one locked
section — so in every reachable state with terminal status the full
combined output of the whole emission is already stored. -/
theorem c6_terminal_implies_full_output (execOk : Bool) (allLines : List String)
    (s : RunState) (hr : Reach execOk allLines s)
    (hterm : s.resp.status ≠ Status.running) :
    s.resp.done = true ∧ s.resp.output = combinedOf allLines ∧ s.pending = [] := by
  obtain ⟨_, h2, h3⟩ := reach_inv hr
  cases hp : s.phase with
  | running =>
    obtain ⟨_, _, hs⟩ := h2 hp
    exact absurd hs hterm
  | finished =>
    obtain ⟨hd, hpend, ho, _⟩ := h3 hp
    exact ⟨hd, ho, hpend⟩

/-- C6 witness: the finalized state of a run that read the line "a". -/
theorem c6_witness :
    c6State.resp.done = true ∧ c6State.resp.output = combinedOf ["a"] ∧
    c6State.pending = [] :=
  c6_terminal_implies_full_output true ["a"] c6State
    (Reach.step (Reach.step Reach.init (RunStep.readLine "a" [] [] LLMResponse.init))
      (RunStep.finalize ["a"] LLMResponse.init))
    (by decide)

/-- C7: `done` is monotonic and the terminal state is frozen: from any
reachable state whose response is done, every further step preserves
done, status, output and error — the only fields a later step may
change are the summary-cache fields (`cacheSummary` is the only step
enabled there).  Moreover every run reaches a done state (`done`
transitions to true, and by monotonicity it does so exactly once). -/
theorem c7_done_monotonic_frozen (execOk : Bool) (allLines : List String)
    (s s' : RunState) (hr : Reach execOk allLines s) (hstep : RunStep execOk s s')
    (hdone : s.resp.done = true) :
    s'.resp.done = true ∧ s'.resp.status = s.resp.status ∧
    s'.resp.output = s.resp.output ∧ s'.resp.err = s.resp.err ∧
    (∃ t, Reach execOk allLines t ∧ t.resp.done = true) := by
  obtain ⟨_, h2, _⟩ := reach_inv hr
  cases hstep with
  | readLine l pending builder resp =>
    have hf : resp.done = false := (h2 rfl).1
    have hd' : resp.done = true := hdone
    rw [hf] at hd'
    exact absurd hd' (by decide)
  | finalize builder resp =>
    have hf : resp.done = false := (h2 rfl).1
    have hd' : resp.done = true := hdone
    rw [hf] at hd'
    exact absurd hd' (by decide)
  | cacheSummary str pending builder resp ph hd hns hout =>
    exact ⟨hd, rfl, rfl, rfl, reach_done execOk allLines⟩

/-- C7 witness: caching a summary on the finalized state of a run
leaves done, status, output and error unchanged. -/
theorem c7_witness :
    ({ finalResp true ["a"] LLMResponse.init with
       summary := "sum", hasSummary := true } : LLMResponse).done = true :=
  (c7_done_monotonic_frozen true ["a"] c6State
    ⟨[], ["a"],
      { finalResp true ["a"] LLMResponse.init with summary := "sum", hasSummary := true },
      .finished⟩
    (Reach.step (Reach.step Reach.init (RunStep.readLine "a" [] [] LLMResponse.init))
      (RunStep.finalize ["a"] LLMResponse.init))
    (RunStep.cacheSummary "sum" [] ["a"] (finalResp true ["a"] LLMResponse.init)
      .finished rfl rfl (by decide))
    rfl).1

/-- C8 counterexample: a sync request on an absent mirror whose
directory creation succeeds but whose shallow clone fails yields an
error carrying the diagnostic text, yet leaves the freshly created
directory in place — the mirror's inferred state advances from absent
to present despite the failing step (the next sync will take the
incremental-update path). -/
theorem c8_counterexample :
    manageRepo false "clone/o/r" c8Oracle =
      (true, SyncOutcome.failed
        ("git clone failed: " ++ "fatal: could not read from remote repository")) ∧
    (manageRepo false "clone/o/r" c8Oracle).1 ≠ false := by
  constructor
  · rfl
  · simp [manageRepo, c8Oracle]

/-- C8 (amended): absent mirror — create the directory, then shallow
clone; present mirror — incremental update (`git pull`); on success the
mirror path and the HEAD revision are returned; any failing step yields
an error with diagnostic text, but a clone failure that occurs after
directory creation leaves the directory present, advancing the mirror's
inferred state from absent to present; only a directory-creation
failure leaves the mirror absent. -/
theorem c8_sync_behaviour (repoDir rev : String) (o : SyncOracle)
    (hrev : o.headRev = some rev) :
    (o.pullOk = true → manageRepo true repoDir o = (true, SyncOutcome.ok repoDir rev)) ∧
    (o.mkdirOk = true → o.cloneOk = true →
      manageRepo false repoDir o = (true, SyncOutcome.ok repoDir rev)) ∧
    (o.pullOk = false →
      manageRepo true repoDir o =
        (true, SyncOutcome.failed ("git pull failed: " ++ o.pullOut))) ∧
    (o.mkdirOk = false →
      manageRepo false repoDir o =
        (false, SyncOutcome.failed "create repo directory failed")) ∧
    (o.mkdirOk = true → o.cloneOk = false →
      manageRepo false repoDir o =
        (true, SyncOutcome.failed ("git clone failed: " ++ o.cloneOut))) := by
  refine ⟨?_, ?_, ?_, ?_, ?_⟩
  · intro hp
    simp [manageRepo, hp, hrev]
  · intro hm hc
    simp [manageRepo, hm, hc, hrev]
  · intro hp
    simp [manageRepo, hp]
  · intro hm
    simp [manageRepo, hm]
  · intro hm hc
    simp [manageRepo, hm, hc]

/-- C8 witness: a sync on a present mirror with all steps succeeding
returns the mirror path and revision. -/
theorem c8_witness :
    manageRepo true "clone/o/r" c8OkOracle =
      (true, SyncOutcome.ok "clone/o/r" "abc123") :=
  (c8_sync_behaviour "clone/o/r" "abc123" c8OkOracle rfl).1 rfl

/-- C9 counterexample: a well-formed POST with a non-empty prompt
naming an unknown notebook (its working directory does not exist) is
answered with HTTP 404, not the claimed 400 (trybook.go line 1104 uses
`http.StatusNotFound`). -/
theorem c9_counterexample :
    apiRunPromptHandler "POST" "/api/run-prompt/o/r/nb" "hi" false "id1" =
      { code := 404, taskId := none, registered := none } ∧
    (404 : Nat) ≠ 400 := by
  constructor
  · rfl
  · decide

/-- C9 (amended): for a POST on a well-formed start-prompt URL, the
endpoint responds 400 when the submitted prompt is empty, 404 when the
named notebook is unknown (its working directory does not exist), and
otherwise allocates a fresh execution ID, registers the Execution under
it, and returns that ID with a 200 response. -/
theorem c9_start_prompt_codes (method urlPath prompt : String) (ex : Bool)
    (freshId : String) (hm : method = "POST")
    (hu6 : 6 ≤ (splitOnCharStr '/' urlPath).length)
    (hua : (splitOnCharStr '/' urlPath).getD 1 "" = "api")
    (hub : (splitOnCharStr '/' urlPath).getD 2 "" = "run-prompt") :
    (prompt = "" → apiRunPromptHandler method urlPath prompt ex freshId =
      { code := 400, taskId := none, registered := none }) ∧
    (prompt ≠ "" → ex = false → apiRunPromptHandler method urlPath prompt ex freshId =
      { code := 404, taskId := none, registered := none }) ∧
    (prompt ≠ "" → ex = true → apiRunPromptHandler method urlPath prompt ex freshId =
      { code := 200, taskId := some freshId, registered := some freshId }) := by
  subst hm
  have hcond : ¬((splitOnCharStr '/' urlPath).length < 6 ∨
      (splitOnCharStr '/' urlPath).getD 1 "" ≠ "api" ∨
      (splitOnCharStr '/' urlPath).getD 2 "" ≠ "run-prompt") := by
    push_neg
    refine ⟨?_, hua, hub⟩
    omega
  refine ⟨?_, ?_, ?_⟩
  · intro hp
    simp only [apiRunPromptHandler]
    rw [if_neg (by simp), if_neg hcond, if_pos hp]
  · intro hp hex
    simp only [apiRunPromptHandler]
    rw [if_neg (by simp), if_neg hcond, if_neg hp, if_pos hex]
  · intro hp hex
    simp only [apiRunPromptHandler]
    rw [if_neg (by simp), if_neg hcond, if_neg hp, if_neg (by simp [hex])]

/-- C9 witness: an empty prompt on a well-formed URL is answered with
400 and nothing is registered. -/
theorem c9_witness :
    apiRunPromptHandler "POST" "/api/run-prompt/o/r/nb" "" true "id1" =
      { code := 400, taskId := none, registered := none } :=
  (c9_start_prompt_codes "POST" "/api/run-prompt/o/r/nb" "" true "id1" rfl
    (by decide) (by decide) (by decide)).1 rfl

end Trybook
